import Mathlib

set_option maxHeartbeats 1000000
set_option linter.unreachableTactic false
set_option linter.unusedTactic false

/-! Verification of the MEPA machine (MEPA.py): instruction parser, program
metadata, execution engine, run loop and debug controller, shallowly embedded
as executable Lean definitions. Raw instruction text is modelled as lists of
characters. -/

/-- Raw program text, modelled as a list of characters. -/
abbrev Str := List Char

/-- Python whitespace test, restricted to the ASCII whitespace characters that
occur in program lines (space, tab, newline, carriage return). -/
def pyIsSpace (c : Char) : Bool :=
  c = ' ' || c = '\t' || c = '\n' || c = '\r'

/-- Python str.strip(): remove leading and trailing whitespace. -/
def stripChars (s : Str) : Str :=
  ((s.dropWhile pyIsSpace).reverse.dropWhile pyIsSpace).reverse

/-- Accumulator-based worker for splitWs; acc holds the current (reversed)
in-progress token. -/
def splitWsAux : Str → Str → List Str
  | [], acc => if acc.isEmpty then [] else [acc.reverse]
  | c :: cs, acc =>
    if pyIsSpace c then
      if acc.isEmpty then splitWsAux cs [] else acc.reverse :: splitWsAux cs []
    else
      splitWsAux cs (c :: acc)

/-- Python str.split() with no separator: split on runs of whitespace,
dropping empty pieces. This also models shlex.split on the quote-free
instruction texts this development works with (the source falls back to
plain split when shlex fails). -/
def splitWs (s : Str) : List Str := splitWsAux s []

/-- Python text.split(sep, 1): split at the first occurrence of sep,
returning none when sep does not occur in the text. -/
def splitFirst (sep : Char) : Str → Option (Str × Str)
  | [] => none
  | c :: cs =>
    if c = sep then some ([], cs)
    else
      match splitFirst sep cs with
      | some (b, a) => some (c :: b, a)
      | none => none

/-- Value of an all-digits string read in base 10. -/
def digitsToNat (s : Str) : Nat :=
  s.foldl (fun n c => 10 * n + (c.toNat - 48)) 0

/-- Python str.isdigit() for ASCII digit strings. -/
def isdigitStr (s : Str) : Bool :=
  !s.isEmpty && s.all Char.isDigit

/-- Python int(token) on a string: strip whitespace, optional sign, decimal
digits. (Digit-group underscores accepted by Python are not modelled; no
token in this program uses them.) -/
def pyIntParse (s : Str) : Option Int :=
  match stripChars s with
  | '-' :: ds => if isdigitStr ds then some (-(digitsToNat ds : Int)) else none
  | '+' :: ds => if isdigitStr ds then some ((digitsToNat ds : Int)) else none
  | ds => if isdigitStr ds then some ((digitsToNat ds : Int)) else none

/-- The guard used by jump_to_line on a textual target:
target.isdigit() or (target.startswith('-') and target[1:].isdigit()). -/
def isIntToken (t : Str) : Bool :=
  isdigitStr t ||
    (match t with
     | '-' :: rest => isdigitStr rest
     | _ => false)

/-- int(target) for tokens accepted by isIntToken. -/
def tokenToInt (t : Str) : Int :=
  match t with
  | '-' :: rest => -(digitsToNat rest : Int)
  | _ => (digitsToNat t : Int)

/-- Characters allowed in a label: c.isalnum() or c == '_' (ASCII). -/
def pyIsLabelChar (c : Char) : Bool := c.isAlphanum || c = '_'

/-- Result of parsing one raw instruction line: optional label, optional
uppercased opcode, argument tokens. (The raw_args string returned by the
source is never consumed by the engine and is omitted.) -/
structure ParsedLine where
  label : Option Str
  instr : Option Str
  args : List Str
deriving DecidableEq, Repr

/-- parse_line_text from MEPA.py: strip the text; if it contains a colon and
the part before the first colon is a nonempty alphanumeric/underscore token,
that token is the label and the rest is the instruction part; empty
instruction text gives opcode none; otherwise the first whitespace token,
uppercased, is the opcode and the remaining tokens are the arguments. -/
def parse_line_text (raw : Str) : ParsedLine :=
  let text := stripChars raw
  let lp :=
    match splitFirst ':' text with
    | none => ((none : Option Str), text)
    | some ba =>
      let tok := stripChars ba.1
      if !tok.isEmpty && tok.all pyIsLabelChar then (some tok, stripChars ba.2)
      else (none, text)
  if lp.2.isEmpty then ⟨lp.1, none, []⟩
  else
    match splitWs lp.2 with
    | [] => ⟨lp.1, none, []⟩
    | w :: ws => ⟨lp.1, some (w.map Char.toUpper), ws⟩

/-- The loaded program: the dict line-number → raw instruction text of
MepaProgram, as an association list with unique keys. -/
abbrev MepaProg := List (Int × Str)

/-- self.program.lines[ln]; total via a default that is never reached when
ln is one of the program's line numbers. -/
def getLineText (p : MepaProg) (ln : Int) : Str :=
  (List.lookup ln p).getD []

/-- sorted(self.program.lines.keys()) from rebuild_metadata. -/
def sortedKeys (p : MepaProg) : List Int :=
  List.insertionSort (· ≤ ·) (p.map Prod.fst)

/-- The label declared on a given program line, if any. -/
def lineLabel (p : MepaProg) (ln : Int) : Option Str :=
  (parse_line_text (getLineText p ln)).label

/-- The opcode of a given program line, if any. -/
def lineInstr (p : MepaProg) (ln : Int) : Option Str :=
  (parse_line_text (getLineText p ln)).instr

/-- Worker for build_labels: scan lines in ascending order, a later line
declaring the same label overrides (modelled by prepending, so List.lookup
finds the most recent binding, like assignment into a Python dict). -/
def buildLabelsAux (p : MepaProg) : List Int → List (Str × Int) → List (Str × Int)
  | [], d => d
  | ln :: rest, d =>
    match lineLabel p ln with
    | some lab => buildLabelsAux p rest ((lab, ln) :: d)
    | none => buildLabelsAux p rest d

/-- The label table built by rebuild_metadata. -/
def build_labels (p : MepaProg) : List (Str × Int) :=
  buildLabelsAux p (sortedKeys p) []

/-- Index of INPP-bearing lines: position of the first line in the given
(ascending) list whose opcode is INPP. -/
def findINPP (p : MepaProg) : List Int → Option Nat
  | [] => none
  | ln :: rest =>
    if lineInstr p ln = some ['I', 'N', 'P', 'P'] then some 0
    else (findINPP p rest).map (· + 1)

/-- find_pc_for_start from MEPA.py: index of the INPP line if one exists,
else 0 for a nonempty program, else none ("Nenhum código para executar"). -/
def find_pc_for_start (p : MepaProg) : Option Nat :=
  match findINPP p (sortedKeys p) with
  | some i => some i
  | none => if (sortedKeys p).isEmpty then none else some 0

/-- Position of a line number in the sorted line list: the value stored in
line_index_map (only consulted for members of the list). -/
def idxOf : List Int → Int → Nat
  | [], _ => 0
  | y :: ys, x => if y = x then 0 else idxOf ys x + 1

/-- The mutable state of MepaMachine. The operand stack is held with its top
at the head; output collects the values printed by IMPR (the engine's only
observable output). The never-read debug_paused field of the source is
omitted. -/
structure MachineState where
  stack : List Int
  memory : List Int
  labels : List (Str × Int)
  sorted_lines : List Int
  pc_index : Nat
  debug_mode : Bool
  running : Bool
  last_executed_line : Option (Int × Str)
  output : List Int
deriving DecidableEq, Repr

/-- reset_machine_state from MEPA.py: clear everything and rebuild the
metadata tables from the program. -/
def reset_machine_state (p : MepaProg) : MachineState :=
  { stack := [], memory := [], labels := build_labels p,
    sorted_lines := sortedKeys p, pc_index := 0, debug_mode := false,
    running := false, last_executed_line := none, output := [] }

/-- get_current_line_lnum: the line number under the program counter. -/
def currentLine (st : MachineState) : Option Int :=
  st.sorted_lines.get? st.pc_index

/-- jump_to_line from MEPA.py on a textual target (the only form the engine
passes). If the token looks like an integer it is resolved as a line number
only: membership in line_index_map, or failure. Otherwise it is resolved
through the label table. -/
def jump_to_line (st : MachineState) (target : Str) : Option MachineState :=
  if isIntToken target then
    let ln := tokenToInt target
    if ln ∈ st.sorted_lines then
      some { st with pc_index := idxOf st.sorted_lines ln }
    else none
  else
    match List.lookup target st.labels with
    | some ln => some { st with pc_index := idxOf st.sorted_lines ln }
    | none => none

/-- The distinct raise sites of execute_current and its helpers. -/
inductive ErrCause where
  | emptyStack
  | argCount (instr : Str)
  | argNotInt (tok : Str)
  | amemInvalid
  | dmemInvalid
  | negAddress
  | outOfBounds (idx : Int)
  | armzNegAddress
  | armzNotAllocated (idx : Int)
  | divZero
  | unresolvedTarget (instr : Str) (target : Str)
  | unknownInstr (instr : Str)
deriving DecidableEq, Repr

/-- Result of executing one instruction: continue (True), stop (False, for
PARA or an exhausted program counter), or a raised error wrapped with the
line number of the failing instruction. -/
inductive StepResult where
  | cont
  | halt
  | err (line : Int) (cause : ErrCause)
deriving DecidableEq, Repr

/-- The shared exit path of non-jumping instructions: pc_index += 1, then
return True. -/
def advance (st : MachineState) : MachineState × StepResult :=
  ({ st with pc_index := st.pc_index + 1 }, .cont)

/-- pop b then pop a, as every binary opcode does; a pop from an empty stack
raises "Pilha vazia", and the first pop's mutation survives when the second
raises. -/
def pop2 (st : MachineState) (ln : Int)
    (k : Int → Int → MachineState → MachineState × StepResult) :
    MachineState × StepResult :=
  match st.stack with
  | [] => (st, .err ln .emptyStack)
  | [_] => ({ st with stack := [] }, .err ln .emptyStack)
  | b :: a :: rest => k a b { st with stack := rest }

/-- The opcode dispatch of execute_current: the effect of one decoded
instruction on the machine state. Errors return the state as mutated up to
the raise site (Python exceptions do not roll back earlier mutations). -/
def exec_instr (st : MachineState) (ln : Int) (instr : Str) (args : List Str) :
    MachineState × StepResult :=
  if instr = ['I', 'N', 'P', 'P'] then advance st
  else if instr = ['A', 'M', 'E', 'M'] then
    match args with
    | [t] =>
      match pyIntParse t with
      | none => (st, .err ln (.argNotInt t))
      | some m =>
        if m < 0 then (st, .err ln .amemInvalid)
        else advance { st with memory := st.memory ++ List.replicate m.toNat 0 }
    | _ => (st, .err ln (.argCount instr))
  else if instr = ['D', 'M', 'E', 'M'] then
    match args with
    | [t] =>
      match pyIntParse t with
      | none => (st, .err ln (.argNotInt t))
      | some m =>
        if m < 0 ∨ (st.memory.length : Int) < m then (st, .err ln .dmemInvalid)
        else advance { st with memory := st.memory.take (st.memory.length - m.toNat) }
    | _ => (st, .err ln (.argCount instr))
  else if instr = ['P', 'A', 'R', 'A'] then (st, .halt)
  else if instr = ['C', 'R', 'C', 'T'] then
    match args with
    | [t] =>
      match pyIntParse t with
      | none => (st, .err ln (.argNotInt t))
      | some v => advance { st with stack := v :: st.stack }
    | _ => (st, .err ln (.argCount instr))
  else if instr = ['C', 'R', 'V', 'L'] then
    match args with
    | [t] =>
      match pyIntParse t with
      | none => (st, .err ln (.argNotInt t))
      | some n =>
        if n < 0 then (st, .err ln .negAddress)
        else if (st.memory.length : Int) ≤ n then (st, .err ln (.outOfBounds n))
        else advance { st with stack := st.memory.getD n.toNat 0 :: st.stack }
    | _ => (st, .err ln (.argCount instr))
  else if instr = ['A', 'R', 'M', 'Z'] then
    match args with
    | [t] =>
      match pyIntParse t with
      | none => (st, .err ln (.argNotInt t))
      | some n =>
        match st.stack with
        | [] => (st, .err ln .emptyStack)
        | v :: rest =>
          if n < 0 then ({ st with stack := rest }, .err ln .armzNegAddress)
          else if (st.memory.length : Int) ≤ n then
            ({ st with stack := rest }, .err ln (.armzNotAllocated n))
          else advance { st with stack := rest, memory := st.memory.set n.toNat v }
    | _ => (st, .err ln (.argCount instr))
  else if instr = ['S', 'O', 'M', 'A'] then
    pop2 st ln fun a b st => advance { st with stack := (a + b) :: st.stack }
  else if instr = ['S', 'U', 'B', 'T'] then
    pop2 st ln fun a b st => advance { st with stack := (a - b) :: st.stack }
  else if instr = ['M', 'U', 'L', 'T'] then
    pop2 st ln fun a b st => advance { st with stack := (a * b) :: st.stack }
  else if instr = ['D', 'I', 'V', 'I'] then
    pop2 st ln fun a b st =>
      if b = 0 then (st, .err ln .divZero)
      else advance { st with stack := Int.fdiv a b :: st.stack }
  else if instr = ['I', 'N', 'V', 'R'] then
    match st.stack with
    | [] => (st, .err ln .emptyStack)
    | a :: rest => advance { st with stack := (-a) :: rest }
  else if instr = ['C', 'O', 'N', 'J'] then
    pop2 st ln fun a b st =>
      advance { st with stack := (if a ≠ 0 ∧ b ≠ 0 then 1 else 0) :: st.stack }
  else if instr = ['D', 'I', 'S', 'J'] then
    pop2 st ln fun a b st =>
      advance { st with stack := (if a ≠ 0 ∨ b ≠ 0 then 1 else 0) :: st.stack }
  else if instr = ['C', 'M', 'M', 'E'] then
    pop2 st ln fun a b st =>
      advance { st with stack := (if a < b then 1 else 0) :: st.stack }
  else if instr = ['C', 'M', 'M', 'A'] then
    pop2 st ln fun a b st =>
      advance { st with stack := (if a > b then 1 else 0) :: st.stack }
  else if instr = ['C', 'M', 'I', 'G'] then
    pop2 st ln fun a b st =>
      advance { st with stack := (if a = b then 1 else 0) :: st.stack }
  else if instr = ['C', 'M', 'D', 'G'] then
    pop2 st ln fun a b st =>
      advance { st with stack := (if a ≠ b then 1 else 0) :: st.stack }
  else if instr = ['C', 'M', 'E', 'G'] then
    pop2 st ln fun a b st =>
      advance { st with stack := (if a ≤ b then 1 else 0) :: st.stack }
  else if instr = ['C', 'M', 'A', 'G'] then
    pop2 st ln fun a b st =>
      advance { st with stack := (if a ≥ b then 1 else 0) :: st.stack }
  else if instr = ['D', 'S', 'V', 'S'] then
    match args with
    | [t] =>
      match jump_to_line st t with
      | some st' => (st', .cont)
      | none => (st, .err ln (.unresolvedTarget ['D', 'S', 'V', 'S'] t))
    | _ => (st, .err ln (.argCount instr))
  else if instr = ['D', 'S', 'V', 'F'] then
    match args with
    | [t] =>
      match st.stack with
      | [] => (st, .err ln .emptyStack)
      | cond :: rest =>
        if cond = 0 then
          match jump_to_line { st with stack := rest } t with
          | some st' => (st', .cont)
          | none =>
            ({ st with stack := rest },
             .err ln (.unresolvedTarget ['D', 'S', 'V', 'F'] t))
        else advance { st with stack := rest }
    | _ => (st, .err ln (.argCount instr))
  else if instr = ['N', 'A', 'D', 'A'] then advance st
  else if instr = ['I', 'M', 'P', 'R'] then
    match st.stack with
    | [] => (st, .err ln .emptyStack)
    | v :: _ => advance { st with output := st.output ++ [v] }
  else (st, .err ln (.unknownInstr instr))

/-- execute_current from MEPA.py: an exhausted program counter returns False;
otherwise the current line is parsed, recorded as last_executed_line, a line
with no opcode is a no-op that advances, and any other opcode is dispatched
through exec_instr. -/
def execute_current (p : MepaProg) (st : MachineState) : MachineState × StepResult :=
  match currentLine st with
  | none => (st, .halt)
  | some ln =>
    let raw := getLineText p ln
    let pl := parse_line_text raw
    let st1 := { st with last_executed_line := some (ln, raw) }
    match pl.instr with
    | none => advance st1
    | some instr => exec_instr st1 ln instr pl.args

/-- Result of the while loop inside run: normal exit, raised error, or out
of fuel (a run that has not yet terminated within the allotted steps). -/
inductive LoopResult where
  | finished (st : MachineState)
  | failed (st : MachineState) (line : Int) (cause : ErrCause)
  | outOfFuel
deriving DecidableEq, Repr

/-- The while loop of run: while running and pc_index < len(sorted_lines),
execute the current instruction; stop on a False result or on an error. -/
def runLoop (p : MepaProg) : Nat → MachineState → LoopResult
  | 0, _ => .outOfFuel
  | fuel + 1, st =>
    if st.running ∧ st.pc_index < st.sorted_lines.length then
      match execute_current p st with
      | (st', .cont) => runLoop p fuel st'
      | (st', .halt) => .finished st'
      | (st', .err ln c) => .failed st' ln c
    else .finished st

/-- Result of run: normal completion, a propagated error carrying the failing
line, the empty-program error, or an unfinished (fuel-exhausted) run. -/
inductive RunResult where
  | ok (st : MachineState)
  | err (st : MachineState) (line : Int) (cause : ErrCause)
  | emptyProgram
  | outOfFuel
deriving DecidableEq, Repr

/-- The finally clause of run: running is cleared whether the loop returned
or raised. -/
def finalizeRun : LoopResult → RunResult
  | .finished st => .ok { st with running := false }
  | .failed st ln c => .err { st with running := false } ln c
  | .outOfFuel => .outOfFuel

/-- run from MEPA.py: reset the machine state, place the program counter at
the start instruction (error if the program is empty), then loop. -/
def run (p : MepaProg) (fuel : Nat) : RunResult :=
  match find_pc_for_start p with
  | none => .emptyProgram
  | some i =>
    finalizeRun (runLoop p fuel
      { reset_machine_state p with pc_index := i, running := true })

/-- debug_start from MEPA.py: reset, place the program counter at the start
instruction, enter debug mode; none models the "Nenhum código para executar"
error for an empty program. -/
def debug_start (p : MepaProg) : Option MachineState :=
  match find_pc_for_start p with
  | none => none
  | some i =>
    some { reset_machine_state p with
             pc_index := i
             debug_mode := true
             running := true }

/-- Result of debug_next: the not-in-debug error, normal completion (debug
mode left), a successful single step that stays paused, or an error raised
by the executed instruction — which propagates without touching the debug
flags or the program counter of the (possibly partially mutated) state. -/
inductive DebugStepResult where
  | notDebug
  | finished (st : MachineState)
  | stepped (st : MachineState)
  | error (st : MachineState) (line : Int) (cause : ErrCause)
deriving DecidableEq, Repr

/-- debug_next from MEPA.py. -/
def debug_next (p : MepaProg) (st : MachineState) : DebugStepResult :=
  if !st.debug_mode || !st.running then .notDebug
  else if st.sorted_lines.length ≤ st.pc_index then
    .finished { st with debug_mode := false, running := false }
  else
    match execute_current p st with
    | (st', .cont) =>
      if st'.pc_index < st'.sorted_lines.length then .stepped st'
      else .finished { st' with debug_mode := false, running := false }
    | (st', .halt) => .finished { st' with debug_mode := false, running := false }
    | (st', .err ln c) => .error st' ln c

example : "ab".data = ['a', 'b'] := rfl

example :
    parse_line_text "L1: CRVL 1".data =
      ⟨some ['L', '1'], some ['C', 'R', 'V', 'L'], [['1']]⟩ := by decide

example : parse_line_text "L1:".data = ⟨some ['L', '1'], none, []⟩ := by decide

example : parse_line_text "  crct -7 ".data =
    ⟨none, some ['C', 'R', 'C', 'T'], [['-', '7']]⟩ := by decide

example : pyIntParse "-7".data = some (-7) := by decide

example : build_labels [((10 : Int), "L1: NADA".data), (20, "L1: NADA".data)] =
    [(['L', '1'], 20), (['L', '1'], 10)] := by decide

example :
    (match run [((10 : Int), "CRCT -7".data), (20, "CRCT 2".data),
                (30, "DIVI".data)] 5 with
     | .ok st => st.stack
     | _ => []) = [-4] := by decide

example :
    (match run [((10 : Int), "CRCT 5".data), (20, "IMPR".data),
                (30, "PARA".data)] 5 with
     | .ok st => (st.stack, st.output)
     | _ => ([], [])) = ([5], [5]) := by decide

/-- A two-line program whose jump target is an all-digits token that names no
program line but does appear in the label table. -/
def progDigitLabel : MepaProg :=
  [((10 : Int), "123: NADA".data), (20, "DSVS 123".data)]

/-- C1: counterexample. In progDigitLabel the token 123 is not an existing
line number but is present in the label table (declared on line 10); the
claim says the jump must then resolve through the label table, yet executing
the DSVS on line 20 fails with an unresolved-target error. -/
theorem c1_counterexample :
    List.lookup "123".data (build_labels progDigitLabel) = some 10 ∧
    ¬ ((123 : Int) ∈ sortedKeys progDigitLabel) ∧
    (execute_current progDigitLabel
        { reset_machine_state progDigitLabel with pc_index := 1, running := true }).2 =
      .err 20 (.unresolvedTarget "DSVS".data "123".data) := by
  decide

/-- C1 (amended): a jump target token that is all digits (optionally after a
leading minus sign) is resolved as a line number only — it succeeds iff that
line number exists in the program, and on failure the label table is never
consulted; any other token is resolved through the label table only,
succeeding iff it is present there. -/
theorem c1_amended (st : MachineState) (t : Str) :
    (isIntToken t = true →
       (tokenToInt t ∈ st.sorted_lines →
          jump_to_line st t =
            some { st with pc_index := idxOf st.sorted_lines (tokenToInt t) }) ∧
       (tokenToInt t ∉ st.sorted_lines → jump_to_line st t = none)) ∧
    (isIntToken t = false →
       (∀ ln, List.lookup t st.labels = some ln →
          jump_to_line st t =
            some { st with pc_index := idxOf st.sorted_lines ln }) ∧
       (List.lookup t st.labels = none → jump_to_line st t = none)) := by
  constructor
  · intro hint
    constructor
    · intro hmem
      simp [jump_to_line, hint, hmem]
    · intro hmem
      simp [jump_to_line, hint, hmem]
  · intro hint
    constructor
    · intro ln hlook
      simp [jump_to_line, hint, hlook]
    · intro hlook
      simp [jump_to_line, hint, hlook]

/-- C1 amended, exercised at concrete inputs: in progDigitLabel the digit
token 10 resolves as line number 10 (index 0), and the non-digit token L9
is absent from the label table so the jump fails. -/
theorem c1_witness :
    jump_to_line { reset_machine_state progDigitLabel with pc_index := 1 }
        "10".data =
      some { reset_machine_state progDigitLabel with pc_index := 0 } ∧
    jump_to_line { reset_machine_state progDigitLabel with pc_index := 1 }
        "L9".data = none := by
  constructor
  · have h :=
      ((c1_amended { reset_machine_state progDigitLabel with pc_index := 1 }
          "10".data).1 (by decide)).1 (by decide)
    rw [h]
    decide
  · exact ((c1_amended { reset_machine_state progDigitLabel with pc_index := 1 }
      "L9".data).2 (by decide)).2 (by decide)

/-- C9: a program line whose text parses to no opcode (for instance an empty
text or a bare label such as L1:) executes as a no-op: the stack, memory and
output are unchanged, the program counter advances by one, and no
unknown-instruction error is raised. -/
theorem c9_no_opcode_is_noop (p : MepaProg) (st : MachineState) (ln : Int)
    (hcur : currentLine st = some ln)
    (hparse : (parse_line_text (getLineText p ln)).instr = none) :
    execute_current p st =
      ({ st with pc_index := st.pc_index + 1,
                 last_executed_line := some (ln, getLineText p ln) }, .cont) := by
  unfold execute_current
  rw [hcur]
  simp only [hparse, advance]

/-- C9 exercised at a concrete input: a one-line program whose single line is
the bare label L1: steps without an error. -/
theorem c9_witness :
    execute_current [((10 : Int), "L1:".data)]
        { reset_machine_state [((10 : Int), "L1:".data)] with running := true } =
      ({ reset_machine_state [((10 : Int), "L1:".data)] with
           pc_index := 1
           running := true
           last_executed_line := some (10, "L1:".data) }, .cont) := by
  have h := c9_no_opcode_is_noop [((10 : Int), "L1:".data)]
    { reset_machine_state [((10 : Int), "L1:".data)] with running := true }
    10 (by decide) (by decide)
  rw [h]
  decide

/-- Definitional reduction of exec_instr at the DSVF opcode with a single
argument token. -/
theorem exec_instr_dsvf (st : MachineState) (ln : Int) (t : Str) :
    exec_instr st ln ['D', 'S', 'V', 'F'] [t] =
      (match st.stack with
       | [] => (st, .err ln .emptyStack)
       | cond :: rest =>
         if cond = 0 then
           match jump_to_line { st with stack := rest } t with
           | some st' => (st', .cont)
           | none =>
             ({ st with stack := rest },
              .err ln (.unresolvedTarget ['D', 'S', 'V', 'F'] t))
         else advance { st with stack := rest }) := rfl

/-- C5: executing DSVF (with its one target token) in a state whose stack top
is non-zero pops that value and advances the program counter to the next
line, with the resulting state independent of the target token — in
particular no target resolution happens and no unresolved-target error can
arise, whatever the token is. -/
theorem c5_dsvf_nonzero (p : MepaProg) (st : MachineState) (ln : Int)
    (lab : Option Str) (t : Str) (v : Int) (rest : List Int)
    (hcur : currentLine st = some ln)
    (hparse : parse_line_text (getLineText p ln) =
      ⟨lab, some ['D', 'S', 'V', 'F'], [t]⟩)
    (hstack : st.stack = v :: rest) (hv : v ≠ 0) :
    execute_current p st =
      ({ st with stack := rest, pc_index := st.pc_index + 1,
                 last_executed_line := some (ln, getLineText p ln) }, .cont) := by
  unfold execute_current
  rw [hcur]
  simp only [hparse, exec_instr_dsvf, hstack, hv, if_false, advance]

/-- C5 exercised at a concrete input: a DSVF whose target token names neither
a line nor a label still falls through when the popped condition is 1. -/
theorem c5_witness :
    execute_current [((10 : Int), "DSVF NOWHERE".data)]
        { reset_machine_state [((10 : Int), "DSVF NOWHERE".data)] with
            stack := [1, 7]
            running := true } =
      ({ reset_machine_state [((10 : Int), "DSVF NOWHERE".data)] with
           stack := [7]
           pc_index := 1
           running := true
           last_executed_line := some (10, "DSVF NOWHERE".data) }, .cont) := by
  have h := c5_dsvf_nonzero [((10 : Int), "DSVF NOWHERE".data)]
    { reset_machine_state [((10 : Int), "DSVF NOWHERE".data)] with
        stack := [1, 7]
        running := true }
    10 none "NOWHERE".data 1 [7] (by decide) (by decide) (by decide) (by decide)
  rw [h]
  decide

/-- Definitional reduction of exec_instr at SOMA: the arguments are not
inspected. -/
theorem exec_instr_soma (st : MachineState) (ln : Int) (args : List Str) :
    exec_instr st ln ['S', 'O', 'M', 'A'] args =
      pop2 st ln (fun a b st => advance { st with stack := (a + b) :: st.stack }) := rfl

/-- Definitional reduction of exec_instr at SUBT. -/
theorem exec_instr_subt (st : MachineState) (ln : Int) (args : List Str) :
    exec_instr st ln ['S', 'U', 'B', 'T'] args =
      pop2 st ln (fun a b st => advance { st with stack := (a - b) :: st.stack }) := rfl

/-- Definitional reduction of exec_instr at MULT. -/
theorem exec_instr_mult (st : MachineState) (ln : Int) (args : List Str) :
    exec_instr st ln ['M', 'U', 'L', 'T'] args =
      pop2 st ln (fun a b st => advance { st with stack := (a * b) :: st.stack }) := rfl

/-- Definitional reduction of exec_instr at DIVI. -/
theorem exec_instr_divi (st : MachineState) (ln : Int) (args : List Str) :
    exec_instr st ln ['D', 'I', 'V', 'I'] args =
      pop2 st ln (fun a b st =>
        if b = 0 then (st, .err ln .divZero)
        else advance { st with stack := Int.fdiv a b :: st.stack }) := rfl

/-- Definitional reduction of exec_instr at INVR. -/
theorem exec_instr_invr (st : MachineState) (ln : Int) (args : List Str) :
    exec_instr st ln ['I', 'N', 'V', 'R'] args =
      (match st.stack with
       | [] => (st, .err ln .emptyStack)
       | a :: rest => advance { st with stack := (-a) :: rest }) := rfl

/-- Definitional reduction of exec_instr at CONJ. -/
theorem exec_instr_conj (st : MachineState) (ln : Int) (args : List Str) :
    exec_instr st ln ['C', 'O', 'N', 'J'] args =
      pop2 st ln (fun a b st =>
        advance { st with stack := (if a ≠ 0 ∧ b ≠ 0 then 1 else 0) :: st.stack }) := rfl

/-- Definitional reduction of exec_instr at DISJ. -/
theorem exec_instr_disj (st : MachineState) (ln : Int) (args : List Str) :
    exec_instr st ln ['D', 'I', 'S', 'J'] args =
      pop2 st ln (fun a b st =>
        advance { st with stack := (if a ≠ 0 ∨ b ≠ 0 then 1 else 0) :: st.stack }) := rfl

/-- Definitional reduction of exec_instr at CMME. -/
theorem exec_instr_cmme (st : MachineState) (ln : Int) (args : List Str) :
    exec_instr st ln ['C', 'M', 'M', 'E'] args =
      pop2 st ln (fun a b st =>
        advance { st with stack := (if a < b then 1 else 0) :: st.stack }) := rfl

/-- Definitional reduction of exec_instr at CMMA. -/
theorem exec_instr_cmma (st : MachineState) (ln : Int) (args : List Str) :
    exec_instr st ln ['C', 'M', 'M', 'A'] args =
      pop2 st ln (fun a b st =>
        advance { st with stack := (if a > b then 1 else 0) :: st.stack }) := rfl

/-- Definitional reduction of exec_instr at CMIG. -/
theorem exec_instr_cmig (st : MachineState) (ln : Int) (args : List Str) :
    exec_instr st ln ['C', 'M', 'I', 'G'] args =
      pop2 st ln (fun a b st =>
        advance { st with stack := (if a = b then 1 else 0) :: st.stack }) := rfl

/-- Definitional reduction of exec_instr at CMDG. -/
theorem exec_instr_cmdg (st : MachineState) (ln : Int) (args : List Str) :
    exec_instr st ln ['C', 'M', 'D', 'G'] args =
      pop2 st ln (fun a b st =>
        advance { st with stack := (if a ≠ b then 1 else 0) :: st.stack }) := rfl

/-- Definitional reduction of exec_instr at CMEG. -/
theorem exec_instr_cmeg (st : MachineState) (ln : Int) (args : List Str) :
    exec_instr st ln ['C', 'M', 'E', 'G'] args =
      pop2 st ln (fun a b st =>
        advance { st with stack := (if a ≤ b then 1 else 0) :: st.stack }) := rfl

/-- Definitional reduction of exec_instr at CMAG. -/
theorem exec_instr_cmag (st : MachineState) (ln : Int) (args : List Str) :
    exec_instr st ln ['C', 'M', 'A', 'G'] args =
      pop2 st ln (fun a b st =>
        advance { st with stack := (if a ≥ b then 1 else 0) :: st.stack }) := rfl

/-- Definitional reduction of exec_instr at NADA. -/
theorem exec_instr_nada (st : MachineState) (ln : Int) (args : List Str) :
    exec_instr st ln ['N', 'A', 'D', 'A'] args = advance st := rfl

/-- Definitional reduction of exec_instr at IMPR. -/
theorem exec_instr_impr (st : MachineState) (ln : Int) (args : List Str) :
    exec_instr st ln ['I', 'M', 'P', 'R'] args =
      (match st.stack with
       | [] => (st, .err ln .emptyStack)
       | v :: _ => advance { st with output := st.output ++ [v] }) := rfl

/-- The opcodes whose execution never inspects the argument tokens: the
binary arithmetic, comparison and logical operators, negation, NADA and
IMPR. -/
def stackOnlyOps : List Str :=
  [['S', 'O', 'M', 'A'], ['S', 'U', 'B', 'T'], ['M', 'U', 'L', 'T'],
   ['D', 'I', 'V', 'I'], ['I', 'N', 'V', 'R'], ['C', 'O', 'N', 'J'],
   ['D', 'I', 'S', 'J'], ['C', 'M', 'M', 'E'], ['C', 'M', 'M', 'A'],
   ['C', 'M', 'I', 'G'], ['C', 'M', 'D', 'G'], ['C', 'M', 'E', 'G'],
   ['C', 'M', 'A', 'G'], ['N', 'A', 'D', 'A'], ['I', 'M', 'P', 'R']]

/-- Any error produced by a plain binary operator comes from popping an empty
stack. -/
theorem binop_err_cause (st : MachineState) (ln : Int) (f : Int → Int → Int)
    (l : Int) (c : ErrCause)
    (h : (pop2 st ln (fun a b st =>
        advance { st with stack := f a b :: st.stack })).2 = .err l c) :
    c = .emptyStack := by
  unfold pop2 at h
  split at h <;> simp_all [advance]

/-- Any error produced by DIVI comes from popping an empty stack or from a
zero divisor. -/
theorem divi_err_cause (st : MachineState) (ln : Int) (l : Int) (c : ErrCause)
    (h : (pop2 st ln (fun a b st =>
        if b = 0 then (st, .err ln .divZero)
        else advance { st with stack := Int.fdiv a b :: st.stack })).2 = .err l c) :
    c = .emptyStack ∨ c = .divZero := by
  unfold pop2 at h
  split at h
  · simp_all
  · simp_all
  · dsimp only at h
    split at h <;> simp_all [advance]

/-- Any error produced by INVR comes from popping an empty stack. -/
theorem invr_err_cause (st : MachineState) (ln : Int) (args : List Str)
    (l : Int) (c : ErrCause)
    (h : (exec_instr st ln ['I', 'N', 'V', 'R'] args).2 = .err l c) :
    c = .emptyStack := by
  rw [exec_instr_invr] at h
  split at h <;> simp_all [advance]

/-- Any error produced by IMPR comes from peeking an empty stack. -/
theorem impr_err_cause (st : MachineState) (ln : Int) (args : List Str)
    (l : Int) (c : ErrCause)
    (h : (exec_instr st ln ['I', 'M', 'P', 'R'] args).2 = .err l c) :
    c = .emptyStack := by
  rw [exec_instr_impr] at h
  split at h <;> simp_all [advance]

/-- C10: for the arithmetic, comparison, logical and negation opcodes and for
NADA and IMPR, execution ignores the argument tokens entirely — the result is
identical for any two argument lists — and the only failures these opcodes
can produce are stack conditions (empty stack, or zero divisor for DIVI),
never a malformed-arguments error. -/
theorem c10_stack_ops_ignore_args (st : MachineState) (ln : Int) (op : Str)
    (args args' : List Str) (hop : op ∈ stackOnlyOps) :
    exec_instr st ln op args = exec_instr st ln op args' ∧
    ∀ l c, (exec_instr st ln op args).2 = .err l c →
      c = .emptyStack ∨ c = .divZero := by
  fin_cases hop
  · refine ⟨rfl, fun l c h => ?_⟩
    rw [exec_instr_soma] at h
    exact Or.inl (binop_err_cause st ln _ l c h)
  · refine ⟨rfl, fun l c h => ?_⟩
    rw [exec_instr_subt] at h
    exact Or.inl (binop_err_cause st ln _ l c h)
  · refine ⟨rfl, fun l c h => ?_⟩
    rw [exec_instr_mult] at h
    exact Or.inl (binop_err_cause st ln _ l c h)
  · refine ⟨rfl, fun l c h => ?_⟩
    rw [exec_instr_divi] at h
    exact divi_err_cause st ln l c h
  · refine ⟨rfl, fun l c h => ?_⟩
    exact Or.inl (invr_err_cause st ln args l c h)
  · refine ⟨rfl, fun l c h => ?_⟩
    rw [exec_instr_conj] at h
    exact Or.inl (binop_err_cause st ln _ l c h)
  · refine ⟨rfl, fun l c h => ?_⟩
    rw [exec_instr_disj] at h
    exact Or.inl (binop_err_cause st ln _ l c h)
  · refine ⟨rfl, fun l c h => ?_⟩
    rw [exec_instr_cmme] at h
    exact Or.inl (binop_err_cause st ln _ l c h)
  · refine ⟨rfl, fun l c h => ?_⟩
    rw [exec_instr_cmma] at h
    exact Or.inl (binop_err_cause st ln _ l c h)
  · refine ⟨rfl, fun l c h => ?_⟩
    rw [exec_instr_cmig] at h
    exact Or.inl (binop_err_cause st ln _ l c h)
  · refine ⟨rfl, fun l c h => ?_⟩
    rw [exec_instr_cmdg] at h
    exact Or.inl (binop_err_cause st ln _ l c h)
  · refine ⟨rfl, fun l c h => ?_⟩
    rw [exec_instr_cmeg] at h
    exact Or.inl (binop_err_cause st ln _ l c h)
  · refine ⟨rfl, fun l c h => ?_⟩
    rw [exec_instr_cmag] at h
    exact Or.inl (binop_err_cause st ln _ l c h)
  · refine ⟨rfl, fun l c h => ?_⟩
    rw [exec_instr_nada] at h
    simp [advance] at h
  · refine ⟨rfl, fun l c h => ?_⟩
    exact Or.inl (impr_err_cause st ln args l c h)

/-- C10 exercised at a concrete input: SOMA with two spurious argument tokens
behaves exactly like SOMA with none. -/
theorem c10_witness :
    exec_instr { reset_machine_state [] with stack := [2, 3] } 10
        ['S', 'O', 'M', 'A'] ["7".data, "X".data] =
      exec_instr { reset_machine_state [] with stack := [2, 3] } 10
        ['S', 'O', 'M', 'A'] [] :=
  (c10_stack_ops_ignore_args { reset_machine_state [] with stack := [2, 3] } 10
    ['S', 'O', 'M', 'A'] ["7".data, "X".data] [] (by decide)).1

/-- Definitional reduction of exec_instr at AMEM with a single argument. -/
theorem exec_instr_amem (st : MachineState) (ln : Int) (t : Str) :
    exec_instr st ln ['A', 'M', 'E', 'M'] [t] =
      (match pyIntParse t with
       | none => (st, .err ln (.argNotInt t))
       | some m =>
         if m < 0 then (st, .err ln .amemInvalid)
         else advance { st with memory := st.memory ++ List.replicate m.toNat 0 }) := rfl

/-- Definitional reduction of exec_instr at DMEM with a single argument. -/
theorem exec_instr_dmem (st : MachineState) (ln : Int) (t : Str) :
    exec_instr st ln ['D', 'M', 'E', 'M'] [t] =
      (match pyIntParse t with
       | none => (st, .err ln (.argNotInt t))
       | some m =>
         if m < 0 ∨ (st.memory.length : Int) < m then (st, .err ln .dmemInvalid)
         else advance { st with memory := st.memory.take (st.memory.length - m.toNat) }) := rfl

/-- C6: from any machine state, executing an AMEM line whose argument is the
non-negative integer n and then the immediately following DMEM line with the
same argument succeeds (both steps continue) and restores the machine to the
original memory — the final state differs from the initial one only in the
program counter (advanced twice) and the last-executed-line record. -/
theorem c6_amem_dmem_roundtrip (p : MepaProg) (st : MachineState)
    (ln1 ln2 : Int) (lab1 lab2 : Option Str) (t1 t2 : Str) (n : Int)
    (hcur : currentLine st = some ln1)
    (hnext : st.sorted_lines.get? (st.pc_index + 1) = some ln2)
    (hp1 : parse_line_text (getLineText p ln1) =
      ⟨lab1, some ['A', 'M', 'E', 'M'], [t1]⟩)
    (hp2 : parse_line_text (getLineText p ln2) =
      ⟨lab2, some ['D', 'M', 'E', 'M'], [t2]⟩)
    (ht1 : pyIntParse t1 = some n) (ht2 : pyIntParse t2 = some n)
    (hn : 0 ≤ n) :
    execute_current p st =
      ({ st with memory := st.memory ++ List.replicate n.toNat 0,
                 pc_index := st.pc_index + 1,
                 last_executed_line := some (ln1, getLineText p ln1) }, .cont) ∧
    execute_current p
        { st with memory := st.memory ++ List.replicate n.toNat 0,
                  pc_index := st.pc_index + 1,
                  last_executed_line := some (ln1, getLineText p ln1) } =
      ({ st with pc_index := st.pc_index + 2,
                 last_executed_line := some (ln2, getLineText p ln2) }, .cont) := by
  obtain ⟨k, rfl⟩ : ∃ k : Nat, n = (k : Int) := ⟨n.toNat, (Int.toNat_of_nonneg hn).symm⟩
  have hk : ((k : Int)).toNat = k := Int.toNat_natCast k
  constructor
  · unfold execute_current
    rw [hcur]
    simp only [hp1, exec_instr_amem, ht1, hk, advance]
    simp [show ¬ ((k : Int) < 0) by omega]
  · have hcur2 :
        currentLine { st with memory := st.memory ++ List.replicate (k : Int).toNat 0,
                              pc_index := st.pc_index + 1,
                              last_executed_line := some (ln1, getLineText p ln1) } =
          some ln2 := by
      simpa [currentLine] using hnext
    unfold execute_current
    rw [hcur2]
    simp only [hp2, exec_instr_dmem, ht2, hk, advance]
    have hcond : ¬ ((k : Int) < 0 ∨
        (((st.memory ++ List.replicate k 0).length : Nat) : Int) < (k : Int)) := by
      rw [not_or, List.length_append, List.length_replicate]
      constructor
      · omega
      · push_cast
        omega
    simp only [hcond, if_false]
    have hmem : (st.memory ++ List.replicate k 0).take
        ((st.memory ++ List.replicate k 0).length - k) = st.memory := by
      rw [List.length_append, List.length_replicate, Nat.add_sub_cancel]
      exact List.take_left st.memory (List.replicate k 0)
    rw [hmem, show st.pc_index + 1 + 1 = st.pc_index + 2 from rfl]

/-- A two-line program allocating and then deallocating two memory cells. -/
def progC6 : MepaProg := [((10 : Int), "AMEM 2".data), (20, "DMEM 2".data)]

/-- A machine state over progC6 that already holds one memory cell and one
stack value. -/
def stC6 : MachineState :=
  { reset_machine_state progC6 with stack := [9], memory := [5], running := true }

/-- C6 exercised at a concrete input: AMEM 2 then DMEM 2 from a state with
memory [5] restores memory [5]. -/
theorem c6_witness :
    execute_current progC6 stC6 =
      ({ stC6 with memory := stC6.memory ++ List.replicate ((2 : Int)).toNat 0,
                   pc_index := stC6.pc_index + 1,
                   last_executed_line := some (10, getLineText progC6 10) }, .cont) ∧
    execute_current progC6
        { stC6 with memory := stC6.memory ++ List.replicate ((2 : Int)).toNat 0,
                    pc_index := stC6.pc_index + 1,
                    last_executed_line := some (10, getLineText progC6 10) } =
      ({ stC6 with pc_index := stC6.pc_index + 2,
                   last_executed_line := some (20, getLineText progC6 20) }, .cont) :=
  c6_amem_dmem_roundtrip progC6 stC6 10 20 none none "2".data "2".data 2
    (by decide) (by decide) (by decide) (by decide) (by decide) (by decide)
    (by decide)

/-- Definitional reduction of exec_instr at CRCT with a single argument. -/
theorem exec_instr_crct (st : MachineState) (ln : Int) (t : Str) :
    exec_instr st ln ['C', 'R', 'C', 'T'] [t] =
      (match pyIntParse t with
       | none => (st, .err ln (.argNotInt t))
       | some v => advance { st with stack := v :: st.stack }) := rfl

/-- Definitional reduction of exec_instr at PARA: it stops execution at
once, whatever the arguments. -/
theorem exec_instr_para (st : MachineState) (ln : Int) (args : List Str) :
    exec_instr st ln ['P', 'A', 'R', 'A'] args = (st, .halt) := rfl

/-- One unfolding of the run loop. -/
theorem runLoop_succ (p : MepaProg) (fuel : Nat) (st : MachineState) :
    runLoop p (fuel + 1) st =
      if st.running ∧ st.pc_index < st.sorted_lines.length then
        match execute_current p st with
        | (st', .cont) => runLoop p fuel st'
        | (st', .halt) => .finished st'
        | (st', .err ln c) => .failed st' ln c
      else .finished st := rfl

/-- A continuing step consumes one unit of fuel. -/
theorem runLoop_step_cont (p : MepaProg) (fuel : Nat) (st st' : MachineState)
    (hcond : st.running ∧ st.pc_index < st.sorted_lines.length)
    (hexec : execute_current p st = (st', .cont)) :
    runLoop p (fuel + 1) st = runLoop p fuel st' := by
  rw [runLoop_succ, if_pos hcond, hexec]

/-- A halting step (PARA) ends the loop. -/
theorem runLoop_step_halt (p : MepaProg) (fuel : Nat) (st st' : MachineState)
    (hcond : st.running ∧ st.pc_index < st.sorted_lines.length)
    (hexec : execute_current p st = (st', .halt)) :
    runLoop p (fuel + 1) st = .finished st' := by
  rw [runLoop_succ, if_pos hcond, hexec]

/-- A failing step ends the loop with the error. -/
theorem runLoop_step_err (p : MepaProg) (fuel : Nat) (st st' : MachineState)
    (ln : Int) (c : ErrCause)
    (hcond : st.running ∧ st.pc_index < st.sorted_lines.length)
    (hexec : execute_current p st = (st', .err ln c)) :
    runLoop p (fuel + 1) st = .failed st' ln c := by
  rw [runLoop_succ, if_pos hcond, hexec]

/-- The loop exits as soon as its condition fails. -/
theorem runLoop_stop (p : MepaProg) (fuel : Nat) (st : MachineState)
    (hcond : ¬ (st.running ∧ st.pc_index < st.sorted_lines.length)) :
    runLoop p (fuel + 1) st = .finished st := by
  rw [runLoop_succ, if_neg hcond]

/-- A running machine state over program p with the given stack, program
counter and last-executed line (fresh memory and output, as in the states
reached by the short straight-line runs below). -/
def midState (p : MepaProg) (stk : List Int) (pc : Nat)
    (lastl : Option (Int × Str)) : MachineState :=
  { reset_machine_state p with
      stack := stk
      pc_index := pc
      running := true
      last_executed_line := lastl }

/-- The loop condition holds in a midState whose counter is below the program
length. -/
theorem midState_cond (p : MepaProg) (stk : List Int) (pc : Nat)
    (lastl : Option (Int × Str)) (h : pc < (sortedKeys p).length) :
    (midState p stk pc lastl).running ∧
      (midState p stk pc lastl).pc_index <
        (midState p stk pc lastl).sorted_lines.length :=
  ⟨rfl, h⟩

/-- The line under the counter of a midState. -/
theorem midState_current (p : MepaProg) (stk : List Int) (pc : Nat)
    (lastl : Option (Int × Str)) :
    currentLine (midState p stk pc lastl) = (sortedKeys p).get? pc := rfl

/-- C3: running a three-line program CRCT a; CRCT b; DIVI (lines 10, 20, 30,
with ta and tb the argument tokens denoting a and b) leaves exactly one value
on the stack, namely the floor division Int.fdiv a b (rounding toward
negative infinity); when b is zero the run instead aborts with a
division-by-zero error at the DIVI line. -/
theorem c3_crct_crct_divi (p : MepaProg) (ta tb : Str) (l1 l2 l3 : Option Str)
    (args3 : List Str) (a b : Int) (fuel : Nat)
    (hsorted : sortedKeys p = [10, 20, 30])
    (hp1 : parse_line_text (getLineText p 10) =
      ⟨l1, some ['C', 'R', 'C', 'T'], [ta]⟩)
    (hp2 : parse_line_text (getLineText p 20) =
      ⟨l2, some ['C', 'R', 'C', 'T'], [tb]⟩)
    (hp3 : parse_line_text (getLineText p 30) =
      ⟨l3, some ['D', 'I', 'V', 'I'], args3⟩)
    (hta : pyIntParse ta = some a) (htb : pyIntParse tb = some b)
    (hfuel : 4 ≤ fuel) :
    (b ≠ 0 → ∃ st, run p fuel = .ok st ∧ st.stack = [Int.fdiv a b]) ∧
    (b = 0 → ∃ st, run p fuel = .err st 30 .divZero) := by
  obtain ⟨k, rfl⟩ : ∃ k, fuel = k + 4 := ⟨fuel - 4, by omega⟩
  have hne1 : ¬ (lineInstr p 10 = some ['I', 'N', 'P', 'P']) := by
    rw [lineInstr, hp1]; simp
  have hne2 : ¬ (lineInstr p 20 = some ['I', 'N', 'P', 'P']) := by
    rw [lineInstr, hp2]; simp
  have hne3 : ¬ (lineInstr p 30 = some ['I', 'N', 'P', 'P']) := by
    rw [lineInstr, hp3]; simp
  have hstart : find_pc_for_start p = some 0 := by
    unfold find_pc_for_start
    rw [hsorted]
    simp [findINPP, hne1, hne2, hne3]
  have hc0 := midState_cond p [] 0 none (by rw [hsorted]; norm_num)
  have hc1 := midState_cond p [a] 1 (some (10, getLineText p 10))
    (by rw [hsorted]; norm_num)
  have hc2 := midState_cond p [b, a] 2 (some (20, getLineText p 20))
    (by rw [hsorted]; norm_num)
  have h1 : execute_current p (midState p [] 0 none) =
      (midState p [a] 1 (some (10, getLineText p 10)), .cont) := by
    unfold execute_current
    rw [midState_current, hsorted,
      show ([10, 20, 30] : List Int).get? 0 = some 10 from rfl]
    simp only [hp1, exec_instr_crct, hta, advance]
    rfl
  have h2 : execute_current p (midState p [a] 1 (some (10, getLineText p 10))) =
      (midState p [b, a] 2 (some (20, getLineText p 20)), .cont) := by
    unfold execute_current
    rw [midState_current, hsorted,
      show ([10, 20, 30] : List Int).get? 1 = some 20 from rfl]
    simp only [hp2, exec_instr_crct, htb, advance]
    rfl
  constructor
  · intro hb
    have h3 : execute_current p (midState p [b, a] 2 (some (20, getLineText p 20))) =
        (midState p [Int.fdiv a b] 3 (some (30, getLineText p 30)), .cont) := by
      unfold execute_current
      rw [midState_current, hsorted,
        show ([10, 20, 30] : List Int).get? 2 = some 30 from rfl]
      simp [hp3, exec_instr_divi, pop2, hb, advance, midState, reset_machine_state]
    have hloop : runLoop p (k + 4) (midState p [] 0 none) =
        .finished (midState p [Int.fdiv a b] 3 (some (30, getLineText p 30))) := by
      rw [show k + 4 = (k + 3) + 1 from rfl,
        runLoop_step_cont p (k + 3) _ _ hc0 h1,
        show k + 3 = (k + 2) + 1 from rfl,
        runLoop_step_cont p (k + 2) _ _ hc1 h2,
        show k + 2 = (k + 1) + 1 from rfl,
        runLoop_step_cont p (k + 1) _ _ hc2 h3]
      refine runLoop_stop p k _ ?_
      rw [not_and]
      intro _
      rw [show (midState p [Int.fdiv a b] 3
        (some (30, getLineText p 30))).sorted_lines = sortedKeys p from rfl]
      rw [show (midState p [Int.fdiv a b] 3
        (some (30, getLineText p 30))).pc_index = 3 from rfl]
      rw [hsorted]
      norm_num
    refine ⟨{ midState p [Int.fdiv a b] 3 (some (30, getLineText p 30)) with
        running := false }, ?_, rfl⟩
    unfold run
    simp only [hstart]
    rw [show ({ reset_machine_state p with pc_index := 0, running := true } :
      MachineState) = midState p [] 0 none from rfl]
    rw [hloop]
    rfl
  · intro hb
    have h3 : execute_current p (midState p [b, a] 2 (some (20, getLineText p 20))) =
        (midState p [] 2 (some (30, getLineText p 30)), .err 30 .divZero) := by
      unfold execute_current
      rw [midState_current, hsorted,
        show ([10, 20, 30] : List Int).get? 2 = some 30 from rfl]
      simp [hp3, exec_instr_divi, pop2, hb, midState, reset_machine_state]
    have hloop : runLoop p (k + 4) (midState p [] 0 none) =
        .failed (midState p [] 2 (some (30, getLineText p 30))) 30 .divZero := by
      rw [show k + 4 = (k + 3) + 1 from rfl,
        runLoop_step_cont p (k + 3) _ _ hc0 h1,
        show k + 3 = (k + 2) + 1 from rfl,
        runLoop_step_cont p (k + 2) _ _ hc1 h2,
        show k + 2 = (k + 1) + 1 from rfl]
      exact runLoop_step_err p (k + 1) _ _ 30 .divZero hc2 h3
    refine ⟨{ midState p [] 2 (some (30, getLineText p 30)) with
        running := false }, ?_⟩
    unfold run
    simp only [hstart]
    rw [show ({ reset_machine_state p with pc_index := 0, running := true } :
      MachineState) = midState p [] 0 none from rfl]
    rw [hloop]
    rfl

/-- C3 exercised at concrete inputs: CRCT -7; CRCT 2; DIVI leaves exactly
[-4] on the stack (floor rounding), and CRCT 5; CRCT 0; DIVI aborts with a
division-by-zero error at line 30. -/
theorem c3_witness :
    (∃ st, run [((10 : Int), "CRCT -7".data), (20, "CRCT 2".data),
        (30, "DIVI".data)] 4 = .ok st ∧ st.stack = [-4]) ∧
    (∃ st, run [((10 : Int), "CRCT 5".data), (20, "CRCT 0".data),
        (30, "DIVI".data)] 4 = .err st 30 .divZero) := by
  constructor
  · obtain ⟨st, hrun, hstack⟩ :=
      (c3_crct_crct_divi
        [((10 : Int), "CRCT -7".data), (20, "CRCT 2".data), (30, "DIVI".data)]
        "-7".data "2".data none none none [] (-7) 2 4
        (by decide) (by decide) (by decide) (by decide) (by decide) (by decide)
        (by norm_num)).1 (by norm_num)
    exact ⟨st, hrun, by rw [hstack]; decide⟩
  · exact (c3_crct_crct_divi
      [((10 : Int), "CRCT 5".data), (20, "CRCT 0".data), (30, "DIVI".data)]
      "5".data "0".data none none none [] 5 0 4
      (by decide) (by decide) (by decide) (by decide) (by decide) (by decide)
      (by norm_num)).2 rfl

/-- C4: running a three-line program CRCT v; IMPR; PARA (lines 10, 20, 30)
terminates normally, emits exactly v as output, and leaves exactly the one
value v on the stack; moreover IMPR in any state reads the stack top without
removing it (appending it to the output) and fails exactly when the stack is
empty. -/
theorem c4_crct_impr_para (p : MepaProg) (tv : Str) (l1 l2 l3 : Option Str)
    (args2 args3 : List Str) (v : Int) (fuel : Nat)
    (hsorted : sortedKeys p = [10, 20, 30])
    (hp1 : parse_line_text (getLineText p 10) =
      ⟨l1, some ['C', 'R', 'C', 'T'], [tv]⟩)
    (hp2 : parse_line_text (getLineText p 20) =
      ⟨l2, some ['I', 'M', 'P', 'R'], args2⟩)
    (hp3 : parse_line_text (getLineText p 30) =
      ⟨l3, some ['P', 'A', 'R', 'A'], args3⟩)
    (htv : pyIntParse tv = some v) (hfuel : 3 ≤ fuel) :
    (∃ st, run p fuel = .ok st ∧ st.stack = [v] ∧ st.output = [v]) ∧
    (∀ q st ln lab args, currentLine st = some ln →
      parse_line_text (getLineText q ln) = ⟨lab, some ['I', 'M', 'P', 'R'], args⟩ →
      (st.stack = [] →
        execute_current q st =
          ({ st with last_executed_line := some (ln, getLineText q ln) },
           .err ln .emptyStack)) ∧
      (∀ x r, st.stack = x :: r →
        execute_current q st =
          ({ st with
               output := st.output ++ [x]
               pc_index := st.pc_index + 1
               last_executed_line := some (ln, getLineText q ln) }, .cont))) := by
  constructor
  · obtain ⟨k, rfl⟩ : ∃ k, fuel = k + 3 := ⟨fuel - 3, by omega⟩
    have hne1 : ¬ (lineInstr p 10 = some ['I', 'N', 'P', 'P']) := by
      rw [lineInstr, hp1]; simp
    have hne2 : ¬ (lineInstr p 20 = some ['I', 'N', 'P', 'P']) := by
      rw [lineInstr, hp2]; simp
    have hne3 : ¬ (lineInstr p 30 = some ['I', 'N', 'P', 'P']) := by
      rw [lineInstr, hp3]; simp
    have hstart : find_pc_for_start p = some 0 := by
      unfold find_pc_for_start
      rw [hsorted]
      simp [findINPP, hne1, hne2, hne3]
    have hc0 := midState_cond p [] 0 none (by rw [hsorted]; norm_num)
    have hc1 := midState_cond p [v] 1 (some (10, getLineText p 10))
      (by rw [hsorted]; norm_num)
    have hc2 : ({ midState p [v] 2 (some (20, getLineText p 20)) with
        output := [v] } : MachineState).running ∧
        ({ midState p [v] 2 (some (20, getLineText p 20)) with
          output := [v] } : MachineState).pc_index <
        ({ midState p [v] 2 (some (20, getLineText p 20)) with
          output := [v] } : MachineState).sorted_lines.length := by
      refine ⟨rfl, ?_⟩
      rw [show ({ midState p [v] 2 (some (20, getLineText p 20)) with
        output := [v] } : MachineState).sorted_lines = sortedKeys p from rfl]
      rw [hsorted]
      norm_num [midState, reset_machine_state]
    have h1 : execute_current p (midState p [] 0 none) =
        (midState p [v] 1 (some (10, getLineText p 10)), .cont) := by
      unfold execute_current
      rw [midState_current, hsorted,
        show ([10, 20, 30] : List Int).get? 0 = some 10 from rfl]
      simp only [hp1, exec_instr_crct, htv, advance]
      rfl
    have h2 : execute_current p (midState p [v] 1 (some (10, getLineText p 10))) =
        ({ midState p [v] 2 (some (20, getLineText p 20)) with
            output := [v] }, .cont) := by
      unfold execute_current
      rw [midState_current, hsorted,
        show ([10, 20, 30] : List Int).get? 1 = some 20 from rfl]
      simp [hp2, exec_instr_impr, advance, midState, reset_machine_state]
    have h3 : execute_current p
        { midState p [v] 2 (some (20, getLineText p 20)) with output := [v] } =
        ({ midState p [v] 2 (some (30, getLineText p 30)) with
            output := [v] }, .halt) := by
      unfold execute_current
      rw [show currentLine { midState p [v] 2 (some (20, getLineText p 20)) with
        output := [v] } = (sortedKeys p).get? 2 from rfl, hsorted,
        show ([10, 20, 30] : List Int).get? 2 = some 30 from rfl]
      simp [hp3, exec_instr_para, midState, reset_machine_state]
    have hloop : runLoop p (k + 3) (midState p [] 0 none) =
        .finished { midState p [v] 2 (some (30, getLineText p 30)) with
          output := [v] } := by
      rw [show k + 3 = (k + 2) + 1 from rfl,
        runLoop_step_cont p (k + 2) _ _ hc0 h1,
        show k + 2 = (k + 1) + 1 from rfl,
        runLoop_step_cont p (k + 1) _ _ hc1 h2]
      exact runLoop_step_halt p k _ _ hc2 h3
    refine ⟨{ midState p [v] 2 (some (30, getLineText p 30)) with
        output := [v], running := false }, ?_, rfl, rfl⟩
    unfold run
    simp only [hstart]
    rw [show ({ reset_machine_state p with pc_index := 0, running := true } :
      MachineState) = midState p [] 0 none from rfl]
    rw [hloop]
    rfl
  · intro q st ln lab args hcur hparse
    constructor
    · intro hstk
      unfold execute_current
      rw [hcur]
      simp only [hparse, exec_instr_impr, hstk]
    · intro x r hstk
      unfold execute_current
      rw [hcur]
      simp only [hparse, exec_instr_impr, hstk, advance]

/-- C4 exercised at a concrete input: CRCT 42; IMPR; PARA emits exactly 42
and finishes with exactly [42] on the stack. -/
theorem c4_witness :
    ∃ st, run [((10 : Int), "CRCT 42".data), (20, "IMPR".data),
      (30, "PARA".data)] 3 = .ok st ∧ st.stack = [42] ∧ st.output = [42] :=
  (c4_crct_impr_para
    [((10 : Int), "CRCT 42".data), (20, "IMPR".data), (30, "PARA".data)]
    "42".data none none none [] [] 42 3
    (by decide) (by decide) (by decide) (by decide) (by decide)
    (by norm_num)).1

/-- Last element of a list of line numbers, if any: in ascending iteration
order this is the line whose label assignment survives in the table. -/
def lastOf : List Int → Option Int
  | [] => none
  | [x] => some x
  | _ :: y :: rest => lastOf (y :: rest)

/-- lastOf of a nonempty list skips the head when the tail is nonempty. -/
theorem lastOf_cons_cons (x y : Int) (l : List Int) :
    lastOf (x :: y :: l) = lastOf (y :: l) := rfl

/-- The lines of the given list that declare the label lab. -/
def declLines (p : MepaProg) (lab : Str) (lines : List Int) : List Int :=
  lines.filter (fun ln => decide (lineLabel p ln = some lab))

/-- lastOf of a nonempty list always yields a value. -/
theorem lastOf_cons_some (y : Int) (r : List Int) :
    ∃ z, lastOf (y :: r) = some z := by
  induction r generalizing y with
  | nil => exact ⟨y, rfl⟩
  | cons a l ih =>
    obtain ⟨z, hz⟩ := ih a
    exact ⟨z, by rw [lastOf_cons_cons, hz]⟩

/-- Looking a label up in the table built by the ascending scan returns the
label's last declaration among the scanned lines, falling back to the
accumulator when the label is never declared. -/
theorem buildLabelsAux_lookup (p : MepaProg) (lab : Str) :
    ∀ (lines : List Int) (d : List (Str × Int)),
      List.lookup lab (buildLabelsAux p lines d) =
        (match lastOf (declLines p lab lines) with
         | some L => some L
         | none => List.lookup lab d) := by
  intro lines
  induction lines with
  | nil => intro d; rfl
  | cons ln rest ih =>
    intro d
    rcases hll : lineLabel p ln with _ | l'
    · have hstep : buildLabelsAux p (ln :: rest) d = buildLabelsAux p rest d := by
        simp only [buildLabelsAux, hll]
      have hfil : declLines p lab (ln :: rest) = declLines p lab rest := by
        simp [declLines, List.filter_cons, hll]
      rw [hstep, ih d, hfil]
    · by_cases hl : l' = lab
      · rw [hl] at hll
        have hstep : buildLabelsAux p (ln :: rest) d =
            buildLabelsAux p rest ((lab, ln) :: d) := by
          simp only [buildLabelsAux, hll]
        have hfil : declLines p lab (ln :: rest) = ln :: declLines p lab rest := by
          simp [declLines, List.filter_cons, hll]
        rw [hstep, ih ((lab, ln) :: d), hfil]
        rcases hrest : declLines p lab rest with _ | ⟨y, r⟩
        · simp [lastOf, List.lookup]
        · obtain ⟨z, hz⟩ := lastOf_cons_some y r
          rw [lastOf_cons_cons, hz]
      · have hstep : buildLabelsAux p (ln :: rest) d =
            buildLabelsAux p rest ((l', ln) :: d) := by
          simp only [buildLabelsAux, hll]
        have hfil : declLines p lab (ln :: rest) = declLines p lab rest := by
          simp [declLines, List.filter_cons, hll, hl]
        have hlook : List.lookup lab ((l', ln) :: d) = List.lookup lab d := by
          have hbeq : (lab == l') = false :=
            beq_eq_false_iff_ne.mpr (Ne.symm hl)
          simp [List.lookup, hbeq]
        rw [hstep, ih ((l', ln) :: d), hfil, hlook]

/-- In a list sorted ascending, the last element exists, is a member, and is
the maximum. -/
theorem lastOf_sorted_max :
    ∀ (l : List Int), l.Sorted (· ≤ ·) → l ≠ [] →
      ∃ L, lastOf l = some L ∧ L ∈ l ∧ ∀ x ∈ l, x ≤ L := by
  intro l
  induction l with
  | nil => intro _ h; exact absurd rfl h
  | cons x rest ih =>
    intro hs _
    rcases hrest : rest with _ | ⟨y, r⟩
    · exact ⟨x, rfl, by simp, by simp⟩
    · subst hrest
      obtain ⟨L, hlast, hmem, hmax⟩ :=
        ih (List.Sorted.of_cons hs) (by simp)
      refine ⟨L, by rw [lastOf_cons_cons, hlast], by simp [hmem], ?_⟩
      intro z hz
      rcases List.mem_cons.mp hz with hz | hz
      · subst hz
        exact List.rel_of_sorted_cons hs L hmem
      · exact hmax z hz

/-- C7 (amended): when two or more lines declare the same label, the label
table maps that label to the greatest line number among the duplicates (the
later line in ascending iteration wins silently); and every jump whose target
token is that label and is not of integer form (all digits, possibly after a
minus sign) resolves to that greatest-numbered line. A jump whose token is of
integer form is resolved as a line number instead and never consults the
label table. -/
theorem c7_amended (p : MepaProg) (lab : Str)
    (hne : declLines p lab (sortedKeys p) ≠ []) :
    ∃ L, List.lookup lab (build_labels p) = some L ∧
      L ∈ declLines p lab (sortedKeys p) ∧
      (∀ l ∈ declLines p lab (sortedKeys p), l ≤ L) ∧
      (isIntToken lab = false → ∀ st : MachineState,
        st.labels = build_labels p → st.sorted_lines = sortedKeys p →
        jump_to_line st lab =
          some { st with pc_index := idxOf st.sorted_lines L }) := by
  have hsort : (sortedKeys p).Sorted (· ≤ ·) :=
    List.sorted_insertionSort (· ≤ ·) (p.map Prod.fst)
  have hsub : List.Sublist (declLines p lab (sortedKeys p)) (sortedKeys p) :=
    List.filter_sublist _
  have hsort2 : (declLines p lab (sortedKeys p)).Sorted (· ≤ ·) :=
    List.Pairwise.sublist hsub hsort
  obtain ⟨L, hlast, hmem, hmax⟩ := lastOf_sorted_max _ hsort2 hne
  have hlook : List.lookup lab (build_labels p) = some L := by
    rw [build_labels, buildLabelsAux_lookup p lab (sortedKeys p) [], hlast]
  refine ⟨L, hlook, hmem, hmax, ?_⟩
  intro hint st hlabels hsl
  unfold jump_to_line
  rw [hint]
  simp only [Bool.false_eq_true, if_false]
  rw [hlabels, hlook]

/-- A program whose duplicate label is itself an all-digits token: both lines
10 and 20 declare the label 123, and line 30 jumps to 123. -/
def progC7 : MepaProg :=
  [((10 : Int), "123: NADA".data), (20, "123: NADA".data),
   (30, "DSVS 123".data)]

/-- C7: counterexample. In progC7 the duplicated label 123 maps, as the claim
says, to the greatest declaring line 20 — yet the jump DSVS 123 to that label
does not resolve there: it fails with an unresolved-target error, because an
all-digits token is resolved as a line number only. -/
theorem c7_counterexample :
    List.lookup "123".data (build_labels progC7) = some 20 ∧
    (execute_current progC7
        { reset_machine_state progC7 with pc_index := 2, running := true }).2 =
      .err 30 (.unresolvedTarget "DSVS".data "123".data) := by
  decide

/-- A program with an alphabetic duplicate label L1 on lines 10 and 20. -/
def progC7w : MepaProg :=
  [((10 : Int), "L1: NADA".data), (20, "L1: NADA".data), (30, "DSVS L1".data)]

/-- C7 amended, exercised at a concrete input: the duplicated label L1 maps
to line 20 and a jump on the token L1 resolves to its index 1. -/
theorem c7_witness :
    List.lookup "L1".data (build_labels progC7w) = some 20 ∧
    jump_to_line (reset_machine_state progC7w) "L1".data =
      some { reset_machine_state progC7w with pc_index := 1 } := by
  obtain ⟨L, hlook, hmem, hmax, hjump⟩ :=
    c7_amended progC7w "L1".data (by decide)
  have hL : L = 20 := by
    have h20 : some L = some 20 := by rw [← hlook]; decide
    exact Option.some.inj h20
  subst hL
  refine ⟨hlook, ?_⟩
  have hj := hjump (by decide) (reset_machine_state progC7w) rfl rfl
  rw [hj]
  decide

/-- findINPP is none exactly when no line of the list bears the INPP
opcode. -/
theorem findINPP_none_iff (p : MepaProg) :
    ∀ lines : List Int, findINPP p lines = none ↔
      ∀ ln ∈ lines, lineInstr p ln ≠ some ['I', 'N', 'P', 'P'] := by
  intro lines
  induction lines with
  | nil => simp [findINPP]
  | cons ln rest ih =>
    by_cases hc : lineInstr p ln = some ['I', 'N', 'P', 'P']
    · simp [findINPP, hc]
    · simp [findINPP, hc, ih]

/-- When findINPP yields an index, that index points to the first line of the
list whose opcode is INPP. -/
theorem findINPP_some (p : MepaProg) :
    ∀ (lines : List Int) (i : Nat), findINPP p lines = some i →
      ∃ ln, lines.get? i = some ln ∧
        lineInstr p ln = some ['I', 'N', 'P', 'P'] ∧
        ∀ j, j < i → ∀ ln', lines.get? j = some ln' →
          lineInstr p ln' ≠ some ['I', 'N', 'P', 'P'] := by
  intro lines
  induction lines with
  | nil => intro i h; simp [findINPP] at h
  | cons ln rest ih =>
    intro i h
    by_cases hc : lineInstr p ln = some ['I', 'N', 'P', 'P']
    · rw [show findINPP p (ln :: rest) = some 0 by simp [findINPP, hc]] at h
      obtain rfl : (0 : Nat) = i := Option.some.inj h
      exact ⟨ln, rfl, hc, fun j hj => absurd hj (Nat.not_lt_zero j)⟩
    · rw [show findINPP p (ln :: rest) = (findINPP p rest).map (· + 1) by
        simp [findINPP, hc]] at h
      obtain ⟨i', hi', rfl⟩ := Option.map_eq_some'.mp h
      obtain ⟨ln', hget, hINPP, hbefore⟩ := ih i' hi'
      refine ⟨ln', by simpa using hget, hINPP, ?_⟩
      intro j hj ln'' hget''
      rcases j with _ | j'
      · simp at hget''
        subst hget''
        exact hc
      · rw [show ((ln :: rest).get? (j' + 1)) = rest.get? j' by simp] at hget''
        exact hbefore j' (by omega) ln'' hget''

/-- C8: starting a run or a debug session first fully resets the machine
state (the started state is the reset state with only the program counter
and mode flags changed) and places the program counter on the first line
bearing the INPP opcode when one exists anywhere in the program, else on the
first line in ascending order; when the program has no lines at all, both
run and debug_start fail with the empty-program error. -/
theorem c8_start_rule (p : MepaProg) :
    (sortedKeys p = [] →
      find_pc_for_start p = none ∧ debug_start p = none ∧
      ∀ fuel, run p fuel = .emptyProgram) ∧
    (sortedKeys p ≠ [] → ∃ i, find_pc_for_start p = some i ∧
      debug_start p = some { reset_machine_state p with
        pc_index := i
        debug_mode := true
        running := true } ∧
      (∀ fuel, run p fuel = finalizeRun (runLoop p fuel
        { reset_machine_state p with pc_index := i, running := true })) ∧
      ((∃ ln ∈ sortedKeys p, lineInstr p ln = some ['I', 'N', 'P', 'P']) →
        ∃ ln, (sortedKeys p).get? i = some ln ∧
          lineInstr p ln = some ['I', 'N', 'P', 'P'] ∧
          ∀ j, j < i → ∀ ln', (sortedKeys p).get? j = some ln' →
            lineInstr p ln' ≠ some ['I', 'N', 'P', 'P']) ∧
      ((∀ ln ∈ sortedKeys p, lineInstr p ln ≠ some ['I', 'N', 'P', 'P']) →
        i = 0)) := by
  constructor
  · intro hsk
    have hfind : find_pc_for_start p = none := by
      unfold find_pc_for_start
      rw [hsk]
      simp [findINPP]
    refine ⟨hfind, ?_, ?_⟩
    · unfold debug_start; rw [hfind]
    · intro fuel; unfold run; rw [hfind]
  · intro hsk
    rcases hf : findINPP p (sortedKeys p) with _ | i
    · have hfind : find_pc_for_start p = some 0 := by
        unfold find_pc_for_start
        rw [hf]
        simp [List.isEmpty_iff, hsk]
      refine ⟨0, hfind, ?_, ?_, ?_, fun _ => rfl⟩
      · unfold debug_start; rw [hfind]
      · intro fuel; unfold run; rw [hfind]
      · rintro ⟨ln, hmem, hln⟩
        exact absurd hln ((findINPP_none_iff p _).mp hf ln hmem)
    · have hfind : find_pc_for_start p = some i := by
        unfold find_pc_for_start
        rw [hf]
      obtain ⟨ln, hget, hINPP, hbefore⟩ := findINPP_some p _ i hf
      refine ⟨i, hfind, ?_, ?_, fun _ => ⟨ln, hget, hINPP, hbefore⟩, ?_⟩
      · unfold debug_start; rw [hfind]
      · intro fuel; unfold run; rw [hfind]
      · intro hnone
        exact absurd hINPP (hnone ln (List.get?_mem hget))

/-- A three-line program whose INPP marker sits on the middle line. -/
def progC8 : MepaProg :=
  [((10 : Int), "NADA".data), (20, "INPP".data), (30, "PARA".data)]

/-- C8 exercised at concrete inputs: the empty program cannot start, and in
progC8 execution starts at index 1, the INPP line. -/
theorem c8_witness :
    find_pc_for_start ([] : MepaProg) = none ∧
    find_pc_for_start progC8 = some 1 ∧
    debug_start progC8 = some { reset_machine_state progC8 with
      pc_index := 1
      debug_mode := true
      running := true } := by
  obtain ⟨hempty, -, -⟩ := (c8_start_rule []).1 (by decide)
  obtain ⟨i, hfind, hdbg, hrun, hinpp, -⟩ :=
    (c8_start_rule progC8).2 (by decide)
  have h1 : some i = some 1 := by rw [← hfind]; decide
  obtain rfl : i = 1 := Option.some.inj h1
  exact ⟨hempty, hfind, hdbg⟩

/-- An error raised by exec_instr carries the executing line number and never
touches the program counter, the mode flags, the snapshot tables or the
last-executed-line record: only the stack (partial pops), the memory and the
output can differ in the returned state. -/
theorem exec_instr_err_fields (st : MachineState) (ln : Int) (instr : Str)
    (args : List Str) (st' : MachineState) (l : Int) (c : ErrCause)
    (h : exec_instr st ln instr args = (st', .err l c)) :
    l = ln ∧ st'.pc_index = st.pc_index ∧ st'.debug_mode = st.debug_mode ∧
    st'.running = st.running ∧ st'.sorted_lines = st.sorted_lines ∧
    st'.last_executed_line = st.last_executed_line := by
  unfold exec_instr pop2 advance at h
  dsimp only at h
  by_cases e1 : instr = ['I', 'N', 'P', 'P']
  case pos =>
    rw [if_pos e1] at h
    repeat' split at h
    all_goals injection h with h1 h2
    all_goals first
      | exact StepResult.noConfusion h2
      | (injection h2 with hl hc
         subst h1
         exact ⟨hl.symm, rfl, rfl, rfl, rfl, rfl⟩)
  rw [if_neg e1] at h
  by_cases e2 : instr = ['A', 'M', 'E', 'M']
  case pos =>
    rw [if_pos e2] at h
    repeat' split at h
    all_goals injection h with h1 h2
    all_goals first
      | exact StepResult.noConfusion h2
      | (injection h2 with hl hc
         subst h1
         exact ⟨hl.symm, rfl, rfl, rfl, rfl, rfl⟩)
  rw [if_neg e2] at h
  by_cases e3 : instr = ['D', 'M', 'E', 'M']
  case pos =>
    rw [if_pos e3] at h
    repeat' split at h
    all_goals injection h with h1 h2
    all_goals first
      | exact StepResult.noConfusion h2
      | (injection h2 with hl hc
         subst h1
         exact ⟨hl.symm, rfl, rfl, rfl, rfl, rfl⟩)
  rw [if_neg e3] at h
  by_cases e4 : instr = ['P', 'A', 'R', 'A']
  case pos =>
    rw [if_pos e4] at h
    repeat' split at h
    all_goals injection h with h1 h2
    all_goals first
      | exact StepResult.noConfusion h2
      | (injection h2 with hl hc
         subst h1
         exact ⟨hl.symm, rfl, rfl, rfl, rfl, rfl⟩)
  rw [if_neg e4] at h
  by_cases e5 : instr = ['C', 'R', 'C', 'T']
  case pos =>
    rw [if_pos e5] at h
    repeat' split at h
    all_goals injection h with h1 h2
    all_goals first
      | exact StepResult.noConfusion h2
      | (injection h2 with hl hc
         subst h1
         exact ⟨hl.symm, rfl, rfl, rfl, rfl, rfl⟩)
  rw [if_neg e5] at h
  by_cases e6 : instr = ['C', 'R', 'V', 'L']
  case pos =>
    rw [if_pos e6] at h
    repeat' split at h
    all_goals injection h with h1 h2
    all_goals first
      | exact StepResult.noConfusion h2
      | (injection h2 with hl hc
         subst h1
         exact ⟨hl.symm, rfl, rfl, rfl, rfl, rfl⟩)
  rw [if_neg e6] at h
  by_cases e7 : instr = ['A', 'R', 'M', 'Z']
  case pos =>
    rw [if_pos e7] at h
    repeat' split at h
    all_goals injection h with h1 h2
    all_goals first
      | exact StepResult.noConfusion h2
      | (injection h2 with hl hc
         subst h1
         exact ⟨hl.symm, rfl, rfl, rfl, rfl, rfl⟩)
  rw [if_neg e7] at h
  by_cases e8 : instr = ['S', 'O', 'M', 'A']
  case pos =>
    rw [if_pos e8] at h
    repeat' split at h
    all_goals injection h with h1 h2
    all_goals first
      | exact StepResult.noConfusion h2
      | (injection h2 with hl hc
         subst h1
         exact ⟨hl.symm, rfl, rfl, rfl, rfl, rfl⟩)
  rw [if_neg e8] at h
  by_cases e9 : instr = ['S', 'U', 'B', 'T']
  case pos =>
    rw [if_pos e9] at h
    repeat' split at h
    all_goals injection h with h1 h2
    all_goals first
      | exact StepResult.noConfusion h2
      | (injection h2 with hl hc
         subst h1
         exact ⟨hl.symm, rfl, rfl, rfl, rfl, rfl⟩)
  rw [if_neg e9] at h
  by_cases e10 : instr = ['M', 'U', 'L', 'T']
  case pos =>
    rw [if_pos e10] at h
    repeat' split at h
    all_goals injection h with h1 h2
    all_goals first
      | exact StepResult.noConfusion h2
      | (injection h2 with hl hc
         subst h1
         exact ⟨hl.symm, rfl, rfl, rfl, rfl, rfl⟩)
  rw [if_neg e10] at h
  by_cases e11 : instr = ['D', 'I', 'V', 'I']
  case pos =>
    rw [if_pos e11] at h
    repeat' split at h
    all_goals injection h with h1 h2
    all_goals first
      | exact StepResult.noConfusion h2
      | (injection h2 with hl hc
         subst h1
         exact ⟨hl.symm, rfl, rfl, rfl, rfl, rfl⟩)
  rw [if_neg e11] at h
  by_cases e12 : instr = ['I', 'N', 'V', 'R']
  case pos =>
    rw [if_pos e12] at h
    repeat' split at h
    all_goals injection h with h1 h2
    all_goals first
      | exact StepResult.noConfusion h2
      | (injection h2 with hl hc
         subst h1
         exact ⟨hl.symm, rfl, rfl, rfl, rfl, rfl⟩)
  rw [if_neg e12] at h
  by_cases e13 : instr = ['C', 'O', 'N', 'J']
  case pos =>
    rw [if_pos e13] at h
    repeat' split at h
    all_goals injection h with h1 h2
    all_goals first
      | exact StepResult.noConfusion h2
      | (injection h2 with hl hc
         subst h1
         exact ⟨hl.symm, rfl, rfl, rfl, rfl, rfl⟩)
  rw [if_neg e13] at h
  by_cases e14 : instr = ['D', 'I', 'S', 'J']
  case pos =>
    rw [if_pos e14] at h
    repeat' split at h
    all_goals injection h with h1 h2
    all_goals first
      | exact StepResult.noConfusion h2
      | (injection h2 with hl hc
         subst h1
         exact ⟨hl.symm, rfl, rfl, rfl, rfl, rfl⟩)
  rw [if_neg e14] at h
  by_cases e15 : instr = ['C', 'M', 'M', 'E']
  case pos =>
    rw [if_pos e15] at h
    repeat' split at h
    all_goals injection h with h1 h2
    all_goals first
      | exact StepResult.noConfusion h2
      | (injection h2 with hl hc
         subst h1
         exact ⟨hl.symm, rfl, rfl, rfl, rfl, rfl⟩)
  rw [if_neg e15] at h
  by_cases e16 : instr = ['C', 'M', 'M', 'A']
  case pos =>
    rw [if_pos e16] at h
    repeat' split at h
    all_goals injection h with h1 h2
    all_goals first
      | exact StepResult.noConfusion h2
      | (injection h2 with hl hc
         subst h1
         exact ⟨hl.symm, rfl, rfl, rfl, rfl, rfl⟩)
  rw [if_neg e16] at h
  by_cases e17 : instr = ['C', 'M', 'I', 'G']
  case pos =>
    rw [if_pos e17] at h
    repeat' split at h
    all_goals injection h with h1 h2
    all_goals first
      | exact StepResult.noConfusion h2
      | (injection h2 with hl hc
         subst h1
         exact ⟨hl.symm, rfl, rfl, rfl, rfl, rfl⟩)
  rw [if_neg e17] at h
  by_cases e18 : instr = ['C', 'M', 'D', 'G']
  case pos =>
    rw [if_pos e18] at h
    repeat' split at h
    all_goals injection h with h1 h2
    all_goals first
      | exact StepResult.noConfusion h2
      | (injection h2 with hl hc
         subst h1
         exact ⟨hl.symm, rfl, rfl, rfl, rfl, rfl⟩)
  rw [if_neg e18] at h
  by_cases e19 : instr = ['C', 'M', 'E', 'G']
  case pos =>
    rw [if_pos e19] at h
    repeat' split at h
    all_goals injection h with h1 h2
    all_goals first
      | exact StepResult.noConfusion h2
      | (injection h2 with hl hc
         subst h1
         exact ⟨hl.symm, rfl, rfl, rfl, rfl, rfl⟩)
  rw [if_neg e19] at h
  by_cases e20 : instr = ['C', 'M', 'A', 'G']
  case pos =>
    rw [if_pos e20] at h
    repeat' split at h
    all_goals injection h with h1 h2
    all_goals first
      | exact StepResult.noConfusion h2
      | (injection h2 with hl hc
         subst h1
         exact ⟨hl.symm, rfl, rfl, rfl, rfl, rfl⟩)
  rw [if_neg e20] at h
  by_cases e21 : instr = ['D', 'S', 'V', 'S']
  case pos =>
    rw [if_pos e21] at h
    repeat' split at h
    all_goals injection h with h1 h2
    all_goals first
      | exact StepResult.noConfusion h2
      | (injection h2 with hl hc
         subst h1
         exact ⟨hl.symm, rfl, rfl, rfl, rfl, rfl⟩)
  rw [if_neg e21] at h
  by_cases e22 : instr = ['D', 'S', 'V', 'F']
  case pos =>
    rw [if_pos e22] at h
    repeat' split at h
    all_goals injection h with h1 h2
    all_goals first
      | exact StepResult.noConfusion h2
      | (injection h2 with hl hc
         subst h1
         exact ⟨hl.symm, rfl, rfl, rfl, rfl, rfl⟩)
  rw [if_neg e22] at h
  by_cases e23 : instr = ['N', 'A', 'D', 'A']
  case pos =>
    rw [if_pos e23] at h
    repeat' split at h
    all_goals injection h with h1 h2
    all_goals first
      | exact StepResult.noConfusion h2
      | (injection h2 with hl hc
         subst h1
         exact ⟨hl.symm, rfl, rfl, rfl, rfl, rfl⟩)
  rw [if_neg e23] at h
  by_cases e24 : instr = ['I', 'M', 'P', 'R']
  case pos =>
    rw [if_pos e24] at h
    repeat' split at h
    all_goals injection h with h1 h2
    all_goals first
      | exact StepResult.noConfusion h2
      | (injection h2 with hl hc
         subst h1
         exact ⟨hl.symm, rfl, rfl, rfl, rfl, rfl⟩)
  rw [if_neg e24] at h
  injection h with h1 h2
  injection h2 with hl hc
  subst h1
  exact ⟨hl.symm, rfl, rfl, rfl, rfl, rfl⟩

/-- An error propagated out of execute_current carries the current line
number, leaves the program counter, mode flags and tables of the state
untouched, and records the failing line as last executed. -/
theorem execute_current_err_fields (p : MepaProg) (st st' : MachineState)
    (ln : Int) (c : ErrCause)
    (h : execute_current p st = (st', .err ln c)) :
    currentLine st = some ln ∧ st'.pc_index = st.pc_index ∧
    st'.debug_mode = st.debug_mode ∧ st'.running = st.running ∧
    st'.sorted_lines = st.sorted_lines ∧
    st'.last_executed_line = some (ln, getLineText p ln) := by
  unfold execute_current at h
  rcases hcur : currentLine st with _ | ln0
  · rw [hcur] at h
    injection h with h1 h2
    exact StepResult.noConfusion h2
  · rw [hcur] at h
    dsimp only at h
    rcases hfi : (parse_line_text (getLineText p ln0)).instr with _ | instr
    · rw [hfi] at h
      dsimp only [advance] at h
      injection h with h1 h2
      exact StepResult.noConfusion h2
    · rw [hfi] at h
      dsimp only at h
      obtain ⟨hl, hpc, hdm, hr, hsl, hle⟩ :=
        exec_instr_err_fields
          { st with last_executed_line := some (ln0, getLineText p ln0) }
          ln0 instr (parse_line_text (getLineText p ln0)).args st' ln c h
      subst hl
      exact ⟨rfl, hpc, hdm, hr, hsl, hle⟩

/-- A run loop that ends in an error recorded the failing line (with its
text) as the last executed line of the returned state. -/
theorem runLoop_err_last (p : MepaProg) :
    ∀ (fuel : Nat) (st st' : MachineState) (ln : Int) (c : ErrCause),
      runLoop p fuel st = .failed st' ln c →
      st'.last_executed_line = some (ln, getLineText p ln) := by
  intro fuel
  induction fuel with
  | zero =>
    intro st st' ln c h
    exact LoopResult.noConfusion h
  | succ f ih =>
    intro st st' ln c h
    rw [runLoop_succ] at h
    split at h
    · rcases hexec : execute_current p st with ⟨st2, r⟩
      rw [hexec] at h
      rcases r with _ | _ | ⟨ln2, c2⟩
      · exact ih st2 st' ln c h
      · exact LoopResult.noConfusion h
      · injection h with h1 h2 h3
        subst h1
        subst h2
        exact (execute_current_err_fields p st st2 ln2 c2 hexec).2.2.2.2.2
    · exact LoopResult.noConfusion h

/-- An error propagated out of debug_next leaves the debug flags and the
program counter untouched — the session is not aborted and the same
instruction stays current — while recording the failing line. -/
theorem debug_next_err_fields (p : MepaProg) (st st' : MachineState)
    (ln : Int) (c : ErrCause)
    (h : debug_next p st = .error st' ln c) :
    st'.debug_mode = st.debug_mode ∧ st'.running = st.running ∧
    st'.pc_index = st.pc_index ∧
    st'.last_executed_line = some (ln, getLineText p ln) := by
  unfold debug_next at h
  split at h
  · exact DebugStepResult.noConfusion h
  · split at h
    · exact DebugStepResult.noConfusion h
    · rcases hexec : execute_current p st with ⟨st2, r⟩
      rw [hexec] at h
      rcases r with _ | _ | ⟨ln2, c2⟩
      · dsimp only at h
        split at h
        · exact DebugStepResult.noConfusion h
        · exact DebugStepResult.noConfusion h
      · exact DebugStepResult.noConfusion h
      · injection h with h1 h2 h3
        subst h1
        subst h2
        obtain ⟨-, hpc, hdm, hr, -, hle⟩ :=
          execute_current_err_fields p st st2 ln2 c2 hexec
        exact ⟨hdm, hr, hpc, hle⟩

/-- C2 (amended): a failure during instruction execution aborts a
run-to-completion invocation — run returns a single error carrying the line
number of the failing instruction (recorded, with its text, as the last
executed line) and the machine is no longer running. In a single-step debug
session, however, the failure is reported with the failing line but does not
abort the session: the debug flags and the program counter are unchanged, so
the machine stays in debug mode and a subsequent step retries the same
instruction. -/
theorem c2_amended (p : MepaProg) :
    (∀ fuel st' ln c, run p fuel = .err st' ln c →
      st'.running = false ∧
      st'.last_executed_line = some (ln, getLineText p ln)) ∧
    (∀ st st' ln c, debug_next p st = .error st' ln c →
      st'.debug_mode = st.debug_mode ∧ st'.running = st.running ∧
      st'.pc_index = st.pc_index ∧
      st'.last_executed_line = some (ln, getLineText p ln)) := by
  constructor
  · intro fuel st' ln c h
    unfold run at h
    rcases hf : find_pc_for_start p with _ | i
    · rw [hf] at h
      exact RunResult.noConfusion h
    · rw [hf] at h
      dsimp only at h
      rcases hloop : runLoop p fuel
          { reset_machine_state p with pc_index := i, running := true } with
        st2 | ⟨st2, ln2, c2⟩ | _
      all_goals rw [hloop] at h
      · unfold finalizeRun at h
        exact RunResult.noConfusion h
      · unfold finalizeRun at h
        injection h with h1 h2 h3
        subst h1
        subst h2
        refine ⟨rfl, ?_⟩
        exact runLoop_err_last p fuel _ st2 ln2 c2 hloop
      · unfold finalizeRun at h
        exact RunResult.noConfusion h
  · intro st st' ln c h
    exact debug_next_err_fields p st st' ln c h

/-- A one-line program whose single instruction has an unknown opcode. -/
def progC2 : MepaProg := [((10 : Int), "XXXX".data)]

/-- The paused state produced by debug_start on progC2. -/
def stC2 : MachineState :=
  { reset_machine_state progC2 with debug_mode := true, running := true }

/-- The state after the failing debug step on progC2. -/
def stC2e : MachineState :=
  { stC2 with last_executed_line := some (10, "XXXX".data) }

/-- C2: counterexample. Stepping the unknown instruction of progC2 in a debug
session raises the error, yet the session is not aborted: the returned state
still has debug_mode and running set with the counter unchanged, and a second
step executes the very same instruction again, failing identically — the
failure neither aborts the debug session nor prevents a retry. -/
theorem c2_counterexample :
    debug_start progC2 = some stC2 ∧
    debug_next progC2 stC2 = .error stC2e 10 (.unknownInstr "XXXX".data) ∧
    stC2e.debug_mode = true ∧ stC2e.running = true ∧
    debug_next progC2 stC2e = .error stC2e 10 (.unknownInstr "XXXX".data) := by
  decide

/-- The error state returned by a failed run of progC2. -/
def stC2r : MachineState :=
  { reset_machine_state progC2 with
      running := false
      last_executed_line := some (10, "XXXX".data) }

/-- C2 amended, exercised at concrete inputs: the failed run of progC2 ends
not running with line 10 recorded, and the failed debug step of progC2 keeps
the session's flags and counter. -/
theorem c2_witness :
    (stC2r.running = false ∧
      stC2r.last_executed_line = some (10, getLineText progC2 10)) ∧
    (stC2e.debug_mode = stC2.debug_mode ∧ stC2e.running = stC2.running ∧
      stC2e.pc_index = stC2.pc_index ∧
      stC2e.last_executed_line = some (10, getLineText progC2 10)) :=
  ⟨(c2_amended progC2).1 5 stC2r 10 (.unknownInstr "XXXX".data) (by decide),
   (c2_amended progC2).2 stC2 stC2e 10 (.unknownInstr "XXXX".data) (by decide)⟩
